import Mathlib

/-!
# bxzstr: the bzip2 stream adapter

A shallow embedding of `src/bz_stream_wrapper.hpp`: the exception class
`bxz::bzException` and the adapter class `bxz::detail::bz_stream_wrapper`.

* The native library (libbzip2) is external.  Its six entry points are the
  fields of `BzLib`, an arbitrary family of functions on the native stream
  structure; every theorem holds for every such library.
* An `int` status is an `Int`; an `unsigned int` field is a `Nat` that is
  reduced modulo `2 ^ 32` whenever the adapter stores into it; a `long` is an
  `Int`; a pointer is its address, `NULL` being `0`.
* A non-`const` member function returns an `Outcome`: the object after the
  call, the native calls it made (each with the status it returned) and its
  result.  A `throw` is the `Except.error` result; the object survives it.
-/

namespace bxz

/-! ## The parts of `bzlib.h` the adapter uses -/

/-- Modelled from the spec: the action `BZ_RUN` of `bzlib.h` (libbzip2), a
header that is not among the sources; the value is the one of that header. -/
def BZ_RUN : Int := 0
/-- Modelled from the spec: the action `BZ_FLUSH` of `bzlib.h`. -/
def BZ_FLUSH : Int := 1
/-- Modelled from the spec: the action `BZ_FINISH` of `bzlib.h`. -/
def BZ_FINISH : Int := 2
/-- Modelled from the spec: the status `BZ_OK` of `bzlib.h`, the "OK"
sentinel of the native library. -/
def BZ_OK : Int := 0
/-- Modelled from the spec: the status `BZ_RUN_OK` of `bzlib.h`. -/
def BZ_RUN_OK : Int := 1
/-- Modelled from the spec: the status `BZ_FLUSH_OK` of `bzlib.h`. -/
def BZ_FLUSH_OK : Int := 2
/-- Modelled from the spec: the status `BZ_FINISH_OK` of `bzlib.h`. -/
def BZ_FINISH_OK : Int := 3
/-- Modelled from the spec: the status `BZ_STREAM_END` of `bzlib.h`, the
"stream complete" sentinel of the native library. -/
def BZ_STREAM_END : Int := 4
/-- Modelled from the spec: the failure code `BZ_SEQUENCE_ERROR` of `bzlib.h`. -/
def BZ_SEQUENCE_ERROR : Int := -1
/-- Modelled from the spec: the failure code `BZ_PARAM_ERROR` of `bzlib.h`. -/
def BZ_PARAM_ERROR : Int := -2
/-- Modelled from the spec: the failure code `BZ_MEM_ERROR` of `bzlib.h`. -/
def BZ_MEM_ERROR : Int := -3
/-- Modelled from the spec: the failure code `BZ_DATA_ERROR` of `bzlib.h`. -/
def BZ_DATA_ERROR : Int := -4
/-- Modelled from the spec: the failure code `BZ_DATA_ERROR_MAGIC` of `bzlib.h`. -/
def BZ_DATA_ERROR_MAGIC : Int := -5
/-- Modelled from the spec: the failure code `BZ_IO_ERROR` of `bzlib.h`. -/
def BZ_IO_ERROR : Int := -6
/-- Modelled from the spec: the failure code `BZ_UNEXPECTED_EOF` of `bzlib.h`. -/
def BZ_UNEXPECTED_EOF : Int := -7
/-- Modelled from the spec: the failure code `BZ_OUTBUFF_FULL` of `bzlib.h`. -/
def BZ_OUTBUFF_FULL : Int := -8
/-- Modelled from the spec: the failure code `BZ_CONFIG_ERROR` of `bzlib.h`. -/
def BZ_CONFIG_ERROR : Int := -9

/-- A pointer, as its address. -/
abbrev Ptr := Nat

/-- The null pointer. -/
def NULL : Ptr := 0

/-- Modelled from the spec: the structure `bz_stream` of `bzlib.h`, the Native
Codec State: the four caller-visible cursor fields, the three allocator hooks
(the third is the field `opaque` of the header), and `priv`, standing for every
library-private member (the running totals and `state`, with what it points
to), which the adapter never inspects. -/
structure bz_stream (σ : Type) where
  next_in : Ptr
  avail_in : Nat
  next_out : Ptr
  avail_out : Nat
  bzalloc : Ptr
  bzfree : Ptr
  opaq : Ptr
  priv : σ
deriving DecidableEq, Repr

/-- Modelled from the spec: the six entry points of libbzip2 that the adapter
calls.  Each receives the stream structure (with further arguments as in
`bzlib.h`) and gives back the structure as the library left it, with the `int`
status it returned.  A value of this type is an arbitrary native library; what
a call does may depend on anything the library can see (the buffers behind the
cursors included), all of which is part of `σ`. -/
structure BzLib (σ : Type) where
  BZ2_bzCompressInit : bz_stream σ → Int → Int → Int → bz_stream σ × Int
  BZ2_bzCompress : bz_stream σ → Int → bz_stream σ × Int
  BZ2_bzCompressEnd : bz_stream σ → bz_stream σ × Int
  BZ2_bzDecompressInit : bz_stream σ → Int → Int → bz_stream σ × Int
  BZ2_bzDecompress : bz_stream σ → bz_stream σ × Int
  BZ2_bzDecompressEnd : bz_stream σ → bz_stream σ × Int

/-- One call into the native library, with the arguments it was given. -/
inductive NativeCall (σ : Type) where
  | CompressInit (strm : bz_stream σ) (blockSize100k verbosity workFactor : Int)
  | Compress (strm : bz_stream σ) (action : Int)
  | CompressEnd (strm : bz_stream σ)
  | DecompressInit (strm : bz_stream σ) (verbosity small : Int)
  | Decompress (strm : bz_stream σ)
  | DecompressEnd (strm : bz_stream σ)
deriving DecidableEq, Repr

/-- A native call together with the status the library returned for it. -/
abbrev Event (σ : Type) := NativeCall σ × Int

/-- Perform a native call: the stream as the library left it, and the status. -/
def BzLib.invoke {σ : Type} (lib : BzLib σ) : NativeCall σ → bz_stream σ × Int
  | .CompressInit strm b v w => lib.BZ2_bzCompressInit strm b v w
  | .Compress strm a => lib.BZ2_bzCompress strm a
  | .CompressEnd strm => lib.BZ2_bzCompressEnd strm
  | .DecompressInit strm v s => lib.BZ2_bzDecompressInit strm v s
  | .Decompress strm => lib.BZ2_bzDecompress strm
  | .DecompressEnd strm => lib.BZ2_bzDecompressEnd strm

/-- The kind of a native call, its arguments forgotten. -/
inductive Entry where
  | CompressInit | Compress | CompressEnd
  | DecompressInit | Decompress | DecompressEnd
deriving DecidableEq, Repr

/-- The entry point a native call goes to. -/
def NativeCall.entry {σ : Type} : NativeCall σ → Entry
  | .CompressInit _ _ _ _ => .CompressInit
  | .Compress _ _ => .Compress
  | .CompressEnd _ => .CompressEnd
  | .DecompressInit _ _ _ => .DecompressInit
  | .Decompress _ => .Decompress
  | .DecompressEnd _ => .DecompressEnd

/-- How often a trace calls the entry point `e`. -/
def countEntry {σ : Type} (e : Entry) (tr : List (Event σ)) : Nat :=
  (tr.filter (fun ev => decide (ev.1.entry = e))).length

/-- The status returned by the most recent native call of a trace. -/
def lastStatus {σ : Type} (tr : List (Event σ)) : Option Int :=
  tr.getLast?.map Prod.snd

/-! ## `class bzException` -/

/-- The conversion of an `int` to `char` done by `_msg += ret`: the byte
`ret mod 256`. -/
def charOfInt (ret : Int) : Char := Char.ofNat (ret % 256).toNat

/-- The exception class `bzException`; its one member is the message.  The
structure constructor is the C++ constructor `bzException(const std::string)`. -/
structure bzException where
  fromMsg ::
  _msg : String
deriving DecidableEq, Repr

/-- The constructor `bzException(bz_stream * bzstrm_p, int ret)`: the `switch`
over `ret` (with `oss << ret` the decimal numeral), then `_msg += ret`, which
appends one `char`. -/
def bzException.fromCode {σ : Type} (_bzstrm_p : bz_stream σ) (ret : Int) : bzException :=
  let _msg : String := "bzlib: "
  let _msg : String :=
    if ret = BZ_CONFIG_ERROR then _msg ++ "BZ_CONFIG_ERROR: "
    else if ret = BZ_SEQUENCE_ERROR then _msg ++ "BZ_SEQUENCE_ERROR: "
    else if ret = BZ_PARAM_ERROR then _msg ++ "BZ_PARAM_ERROR: "
    else if ret = BZ_MEM_ERROR then _msg ++ "BZ_MEM_ERROR: "
    else if ret = BZ_DATA_ERROR then _msg ++ "BZ_DATA_ERROR: "
    else if ret = BZ_DATA_ERROR_MAGIC then _msg ++ "BZ_DATA_ERROR_MAGIC: "
    else if ret = BZ_IO_ERROR then _msg ++ "BZ_IO_ERROR: "
    else if ret = BZ_UNEXPECTED_EOF then _msg ++ "BZ_UNEXPECTED_EOF: "
    else if ret = BZ_OUTBUFF_FULL then _msg ++ "BZ_OUTBUFF_FULL: "
    else _msg ++ ("[" ++ toString ret ++ "]: ")
  bzException.fromMsg (_msg.push (charOfInt ret))

/-- The member `what()`: `_msg.c_str()`, which a reader of the C string sees up
to its first NUL character. -/
def bzException.what (e : bzException) : String :=
  String.mk (e._msg.data.takeWhile (fun c => c != Char.ofNat 0))

/-! ## `class bz_stream_wrapper` -/

/-- The class `bz_stream_wrapper`: its base subobject `bz_stream` (the field
`strm`) and its two private members. -/
structure bz_stream_wrapper (σ : Type) where
  strm : bz_stream σ
  is_input : Bool
  ret : Int
deriving DecidableEq, Repr

/-- What a non-`const` member function leaves behind: the object after the
call, the native calls made, in order, and the value returned (for a function
that can throw: `Except.error` with the exception thrown). -/
structure Outcome (σ α : Type) where
  obj : bz_stream_wrapper σ
  calls : List (Event σ)
  result : α

/-- The conversion of a `long` to `unsigned int` done by an assignment to
`avail_in` or `avail_out`. -/
def toUInt (x : Int) : Nat := (x % 4294967296).toNat

namespace bz_stream_wrapper

variable {σ : Type}

/-- The constructor `bz_stream_wrapper(bool _is_input = true, int _level = 9,
int _wf = 30)`.  `raw` is the content of the base subobject before the
constructor body runs (the constructor does not initialise it), `new_in` and
`new_out` are the pointers the two `new char()` return.  The result is the
native call made and either the constructed object or the exception thrown. -/
def construct (lib : BzLib σ) (raw : bz_stream σ) (new_in new_out : Ptr)
    (_is_input : Bool) (_level _wf : Int) :
    List (Event σ) × Except bzException (bz_stream_wrapper σ) :=
  let this : bz_stream σ := { raw with next_in := new_in }
  let this : bz_stream σ := { this with next_out := new_out }
  let this : bz_stream σ := { this with bzalloc := NULL }
  let this : bz_stream σ := { this with bzfree := NULL }
  let this : bz_stream σ := { this with opaq := NULL }
  let call : NativeCall σ :=
    if _is_input then
      let this : bz_stream σ := { this with avail_in := 0 }
      let this : bz_stream σ := { this with next_in := NULL }
      NativeCall.DecompressInit this 0 0
    else
      NativeCall.CompressInit this _level 0 _wf
  let r := lib.invoke call
  if r.2 ≠ BZ_OK then
    ([(call, r.2)], Except.error (bzException.fromCode r.1 r.2))
  else
    ([(call, r.2)], Except.ok { strm := r.1, is_input := _is_input, ret := r.2 })

/-- The destructor `~bz_stream_wrapper()`: the native calls it makes. -/
def destroy (lib : BzLib σ) (w : bz_stream_wrapper σ) : List (Event σ) :=
  let call : NativeCall σ :=
    if w.is_input then NativeCall.DecompressEnd w.strm
    else NativeCall.CompressEnd w.strm
  [(call, (lib.invoke call).2)]

/-- The member `int decompress(int _flags = 0)`; `none` is the omitted
argument. -/
def decompress (lib : BzLib σ) (w : bz_stream_wrapper σ) (flags : Option Int) :
    Outcome σ (Except bzException Int) :=
  let _flags : Int := flags.getD 0
  let call : NativeCall σ := NativeCall.Decompress w.strm
  let r := lib.invoke call
  let w : bz_stream_wrapper σ := { w with strm := r.1, ret := r.2 }
  if w.ret ≠ BZ_OK ∧ w.ret ≠ BZ_STREAM_END then
    { obj := w, calls := [(call, r.2)], result := Except.error (bzException.fromCode w.strm w.ret) }
  else
    { obj := w, calls := [(call, r.2)], result := Except.ok w.ret }

/-- The member `int compress(int _flags = BZ_RUN)`; `none` is the omitted
argument. -/
def compress (lib : BzLib σ) (w : bz_stream_wrapper σ) (flags : Option Int) :
    Outcome σ (Except bzException Int) :=
  let _flags : Int := flags.getD BZ_RUN
  let call : NativeCall σ := NativeCall.Compress w.strm _flags
  let r := lib.invoke call
  let w : bz_stream_wrapper σ := { w with strm := r.1, ret := r.2 }
  if w.ret = 0 then
    { obj := w, calls := [(call, r.2)], result := Except.error (bzException.fromCode w.strm w.ret) }
  else
    { obj := w, calls := [(call, r.2)], result := Except.ok w.ret }

/-- The member `bool stream_end() const`. -/
def stream_end (w : bz_stream_wrapper σ) : Bool :=
  decide (w.ret = BZ_STREAM_END)

/-- The member `bool done() const`. -/
def done (w : bz_stream_wrapper σ) : Bool :=
  w.stream_end

/-- The member `const uint8_t* next_in()`. -/
def next_in (w : bz_stream_wrapper σ) : Outcome σ Ptr :=
  { obj := w, calls := [], result := w.strm.next_in }

/-- The member `long avail_in()`. -/
def avail_in (w : bz_stream_wrapper σ) : Outcome σ Int :=
  { obj := w, calls := [], result := Int.ofNat w.strm.avail_in }

/-- The member `uint8_t* next_out()`. -/
def next_out (w : bz_stream_wrapper σ) : Outcome σ Ptr :=
  { obj := w, calls := [], result := w.strm.next_out }

/-- The member `long avail_out()`. -/
def avail_out (w : bz_stream_wrapper σ) : Outcome σ Int :=
  { obj := w, calls := [], result := Int.ofNat w.strm.avail_out }

/-- The member `void set_next_in(const unsigned char* in)`. -/
def set_next_in (w : bz_stream_wrapper σ) (in_ : Ptr) : Outcome σ Unit :=
  { obj := { w with strm := { w.strm with next_in := in_ } }, calls := [], result := () }

/-- The member `void set_avail_in(long in)`. -/
def set_avail_in (w : bz_stream_wrapper σ) (in_ : Int) : Outcome σ Unit :=
  { obj := { w with strm := { w.strm with avail_in := toUInt in_ } }, calls := [], result := () }

/-- The member `void set_next_out(uint8_t* in)`. -/
def set_next_out (w : bz_stream_wrapper σ) (in_ : Ptr) : Outcome σ Unit :=
  { obj := { w with strm := { w.strm with next_out := in_ } }, calls := [], result := () }

/-- The member `void set_avail_out(long in)`. -/
def set_avail_out (w : bz_stream_wrapper σ) (in_ : Int) : Outcome σ Unit :=
  { obj := { w with strm := { w.strm with avail_out := toUInt in_ } }, calls := [], result := () }

end bz_stream_wrapper

/-! ## Sessions: sequences of calls on one adapter -/

/-- A call of one of the eight buffer members (four accessors, four mutators). -/
inductive BufferCall where
  | next_in
  | avail_in
  | next_out
  | avail_out
  | set_next_in (in_ : Ptr)
  | set_avail_in (in_ : Int)
  | set_next_out (in_ : Ptr)
  | set_avail_out (in_ : Int)
deriving DecidableEq, Repr

/-- A call of a member function of a live adapter. -/
inductive Call where
  | decompress (flags : Option Int)
  | compress (flags : Option Int)
  | stream_end
  | done
  | buffer (b : BufferCall)
deriving DecidableEq, Repr

section
variable {σ : Type}

/-- The object after a buffer call, and the native calls made. -/
def BufferCall.exec (b : BufferCall) (w : bz_stream_wrapper σ) :
    bz_stream_wrapper σ × List (Event σ) :=
  match b with
  | .next_in => (w.next_in.obj, w.next_in.calls)
  | .avail_in => (w.avail_in.obj, w.avail_in.calls)
  | .next_out => (w.next_out.obj, w.next_out.calls)
  | .avail_out => (w.avail_out.obj, w.avail_out.calls)
  | .set_next_in p => ((w.set_next_in p).obj, (w.set_next_in p).calls)
  | .set_avail_in n => ((w.set_avail_in n).obj, (w.set_avail_in n).calls)
  | .set_next_out p => ((w.set_next_out p).obj, (w.set_next_out p).calls)
  | .set_avail_out n => ((w.set_avail_out n).obj, (w.set_avail_out n).calls)

/-- The object after a sequence of buffer calls. -/
def runBuffer (bs : List BufferCall) (w : bz_stream_wrapper σ) : bz_stream_wrapper σ :=
  bs.foldl (fun w b => (b.exec w).1) w

/-- The object after a call, and the native calls made.  An exception thrown
by a step is caught by the caller: the object lives on. -/
def Call.exec (lib : BzLib σ) (c : Call) (w : bz_stream_wrapper σ) :
    bz_stream_wrapper σ × List (Event σ) :=
  match c with
  | .decompress flags => ((w.decompress lib flags).obj, (w.decompress lib flags).calls)
  | .compress flags => ((w.compress lib flags).obj, (w.compress lib flags).calls)
  | .stream_end => (w, [])
  | .done => (w, [])
  | .buffer b => b.exec w

/-- The object after a sequence of calls, and the trace of native calls. -/
def run (lib : BzLib σ) : List Call → bz_stream_wrapper σ → bz_stream_wrapper σ × List (Event σ)
  | [], w => (w, [])
  | c :: cs, w =>
    let o := c.exec lib w
    let rest := run lib cs o.1
    (rest.1, o.2 ++ rest.2)

/-- The trace of native calls of a whole session: construction, then the calls
`cs`, then destruction.  When the constructor throws there is no object: no
call can be made on it and its destructor does not run. -/
def session (lib : BzLib σ) (raw : bz_stream σ) (new_in new_out : Ptr)
    (_is_input : Bool) (_level _wf : Int) (cs : List Call) : List (Event σ) :=
  match bz_stream_wrapper.construct lib raw new_in new_out _is_input _level _wf with
  | (t0, Except.error _) => t0
  | (t0, Except.ok w0) =>
    let r := run lib cs w0
    t0 ++ r.2 ++ r.1.destroy lib

/-- The live adapter after construction and the calls `cs`, with the trace of
native calls so far; `none` when the constructor throws. -/
def live (lib : BzLib σ) (raw : bz_stream σ) (new_in new_out : Ptr)
    (_is_input : Bool) (_level _wf : Int) (cs : List Call) :
    Option (bz_stream_wrapper σ × List (Event σ)) :=
  match bz_stream_wrapper.construct lib raw new_in new_out _is_input _level _wf with
  | (_, Except.error _) => none
  | (t0, Except.ok w0) =>
    let r := run lib cs w0
    some (r.1, t0 ++ r.2)

end

/-- The status the native decompress call returns on the adapter's stream. -/
def decompressStatus {σ : Type} (lib : BzLib σ) (w : bz_stream_wrapper σ) : Int :=
  (lib.invoke (NativeCall.Decompress w.strm)).2

/-- The status the native compress call returns on the adapter's stream for
the action `f`. -/
def compressStatus {σ : Type} (lib : BzLib σ) (w : bz_stream_wrapper σ) (f : Int) : Int :=
  (lib.invoke (NativeCall.Compress w.strm f)).2

/-! ## A concrete native library, for evaluation -/

/-- One call of the scripted library: it returns the next status of its script
(`BZ_OK` once the script is used up) and leaves the cursors alone. -/
def scriptedCall (strm : bz_stream (List Int)) : bz_stream (List Int) × Int :=
  ({ strm with priv := strm.priv.tail }, strm.priv.headD 0)

/-- A native library whose private state is the list of statuses its coming
calls return, in order. -/
def scripted : BzLib (List Int) where
  BZ2_bzCompressInit := fun strm _ _ _ => scriptedCall strm
  BZ2_bzCompress := fun strm _ => scriptedCall strm
  BZ2_bzCompressEnd := fun strm => scriptedCall strm
  BZ2_bzDecompressInit := fun strm _ _ => scriptedCall strm
  BZ2_bzDecompress := fun strm => scriptedCall strm
  BZ2_bzDecompressEnd := fun strm => scriptedCall strm

/-- The memory of a stream structure before construction, all zero, the script
`script` behind it. -/
def rawStream (script : List Int) : bz_stream (List Int) :=
  { next_in := 0, avail_in := 0, next_out := 0, avail_out := 0,
    bzalloc := 0, bzfree := 0, opaq := 0, priv := script }

/-- A live adapter over the scripted library. -/
def scriptedWrapper (_is_input : Bool) (ret : Int) (script : List Int) :
    bz_stream_wrapper (List Int) :=
  { strm := rawStream script, is_input := _is_input, ret := ret }

/-! ## Reading a message back -/

/-- The string `s` starts with the string `pre`. -/
def StartsWith (s pre : String) : Prop := ∃ rest : String, s = pre ++ rest

/-- The number a list of decimal digits denotes. -/
def decimalValue (ds : List Char) : Nat :=
  ds.foldl (fun a c => 10 * a + (c.toNat - 48)) 0

/-- The integer a decimal numeral, with an optional leading minus sign,
denotes. -/
def intValue (l : List Char) : Int :=
  match l with
  | [] => 0
  | c :: t => if c = '-' then -(decimalValue t : Int) else (decimalValue (c :: t) : Int)

/-- The code a message was built from, read back from its characters: after
the seven characters of `bzlib: ` either a bracketed numeral or the name of a
documented code, up to the colon. -/
def codeOfMessage (l : List Char) : Int :=
  match l.drop 7 with
  | [] => 0
  | c :: t =>
    if c = '[' then intValue (t.takeWhile (fun x => x != ']'))
    else
      let name := (c :: t).takeWhile (fun x => x != ':')
      if name = "BZ_CONFIG_ERROR".data then BZ_CONFIG_ERROR
      else if name = "BZ_SEQUENCE_ERROR".data then BZ_SEQUENCE_ERROR
      else if name = "BZ_PARAM_ERROR".data then BZ_PARAM_ERROR
      else if name = "BZ_MEM_ERROR".data then BZ_MEM_ERROR
      else if name = "BZ_DATA_ERROR".data then BZ_DATA_ERROR
      else if name = "BZ_DATA_ERROR_MAGIC".data then BZ_DATA_ERROR_MAGIC
      else if name = "BZ_IO_ERROR".data then BZ_IO_ERROR
      else if name = "BZ_UNEXPECTED_EOF".data then BZ_UNEXPECTED_EOF
      else if name = "BZ_OUTBUFF_FULL".data then BZ_OUTBUFF_FULL
      else 0

/-! ## The step functions -/

/-- C2: a decompress step makes one native call, `BZ2_bzDecompress` on the
adapter's stream, and for the status `r` that call returns: it throws if and
only if `r` is neither `BZ_OK` nor `BZ_STREAM_END`, the exception thrown being
the one built from `r`; otherwise it returns exactly `r`; and `r` is recorded
as the last status. -/
theorem decompress_raises_iff {σ : Type} (lib : BzLib σ) (w : bz_stream_wrapper σ)
    (flags : Option Int) :
    (w.decompress lib flags).calls
        = [(NativeCall.Decompress w.strm, decompressStatus lib w)] ∧
    ((∃ e, (w.decompress lib flags).result = Except.error e) ↔
        (decompressStatus lib w ≠ BZ_OK ∧ decompressStatus lib w ≠ BZ_STREAM_END)) ∧
    (w.decompress lib flags).result
        = (if decompressStatus lib w ≠ BZ_OK ∧ decompressStatus lib w ≠ BZ_STREAM_END then
            Except.error (bzException.fromCode (w.decompress lib flags).obj.strm
              (decompressStatus lib w))
          else Except.ok (decompressStatus lib w)) ∧
    (w.decompress lib flags).obj.ret = decompressStatus lib w := by
  unfold bz_stream_wrapper.decompress decompressStatus
  by_cases h : (lib.invoke (NativeCall.Decompress w.strm)).2 ≠ BZ_OK ∧
      (lib.invoke (NativeCall.Decompress w.strm)).2 ≠ BZ_STREAM_END
  · rw [if_pos h]
    exact ⟨rfl, ⟨fun _ => h, fun _ => ⟨_, rfl⟩⟩, by rw [if_pos h], rfl⟩
  · rw [if_neg h]
    refine ⟨rfl, ⟨?_, fun h2 => absurd h2 h⟩, by rw [if_neg h], rfl⟩
    rintro ⟨e, he⟩
    cases he

/-- C3: a compress step makes one native call, `BZ2_bzCompress` on the
adapter's stream with exactly the flush mode given (`BZ_RUN` when it is
omitted), and for the status `r` that call returns: it throws if and only if
`r` is zero; for every non-zero `r` it returns exactly `r`; and `r` is recorded
as the last status. -/
theorem compress_raises_iff_zero {σ : Type} (lib : BzLib σ) (w : bz_stream_wrapper σ)
    (flags : Option Int) :
    (w.compress lib flags).calls
        = [(NativeCall.Compress w.strm (flags.getD BZ_RUN),
            compressStatus lib w (flags.getD BZ_RUN))] ∧
    ((∃ e, (w.compress lib flags).result = Except.error e) ↔
        compressStatus lib w (flags.getD BZ_RUN) = 0) ∧
    (w.compress lib flags).result
        = (if compressStatus lib w (flags.getD BZ_RUN) = 0 then
            Except.error (bzException.fromCode (w.compress lib flags).obj.strm
              (compressStatus lib w (flags.getD BZ_RUN)))
          else Except.ok (compressStatus lib w (flags.getD BZ_RUN))) ∧
    (w.compress lib flags).obj.ret = compressStatus lib w (flags.getD BZ_RUN) := by
  unfold bz_stream_wrapper.compress compressStatus
  by_cases h : (lib.invoke (NativeCall.Compress w.strm (flags.getD BZ_RUN))).2 = 0
  · rw [if_pos h]
    exact ⟨rfl, ⟨fun _ => h, fun _ => ⟨_, rfl⟩⟩, by rw [if_pos h], rfl⟩
  · rw [if_neg h]
    refine ⟨rfl, ⟨?_, fun h2 => absurd h2 h⟩, by rw [if_neg h], rfl⟩
    rintro ⟨e, he⟩
    cases he

/-- C1 (the code at the failing input): a compress adapter is constructed over
a native library whose compress call then returns the failure code
`BZ_PARAM_ERROR`; the compress step does not throw, it returns that code to the
caller, and the adapter stays usable with the code as its last status. -/
theorem compress_returns_failure_code :
    (bz_stream_wrapper.construct scripted (rawStream [BZ_OK, BZ_PARAM_ERROR]) 1 2 false 9 30).2
        = Except.ok { strm := { rawStream [BZ_PARAM_ERROR] with next_in := 1, next_out := 2 },
                      is_input := false, ret := BZ_OK } ∧
    (bz_stream_wrapper.compress scripted
        { strm := { rawStream [BZ_PARAM_ERROR] with next_in := 1, next_out := 2 },
          is_input := false, ret := BZ_OK } (some 7)).result = Except.ok (-2) ∧
    (bz_stream_wrapper.compress scripted
        { strm := { rawStream [BZ_PARAM_ERROR] with next_in := 1, next_out := 2 },
          is_input := false, ret := BZ_OK } (some 7)).obj.ret = BZ_PARAM_ERROR := by
  exact ⟨rfl, rfl, rfl⟩

/-! ## Construction -/

/-- C5: for every mode, level and work factor the constructor makes one native
call, to the initializer of the requested mode, and for the status that call
returns: the constructor throws, the exception being the one built from that
status, if and only if the status is not `BZ_OK`; and the status is `BZ_OK` if
and only if an adapter is constructed, which then has the requested mode, has
`BZ_OK` as its last status and answers `false` to `stream_end()`. -/
theorem construct_raises_iff {σ : Type} (lib : BzLib σ) (raw : bz_stream σ)
    (new_in new_out : Ptr) (_is_input : Bool) (_level _wf : Int) :
    ∃ call : NativeCall σ,
      (bz_stream_wrapper.construct lib raw new_in new_out _is_input _level _wf).1
          = [(call, (lib.invoke call).2)] ∧
      call.entry = (if _is_input then Entry.DecompressInit else Entry.CompressInit) ∧
      ((lib.invoke call).2 ≠ BZ_OK ↔
        (bz_stream_wrapper.construct lib raw new_in new_out _is_input _level _wf).2
          = Except.error (bzException.fromCode (lib.invoke call).1 (lib.invoke call).2)) ∧
      ((lib.invoke call).2 ≠ BZ_OK ↔
        ∃ e, (bz_stream_wrapper.construct lib raw new_in new_out _is_input _level _wf).2
          = Except.error e) ∧
      ((lib.invoke call).2 = BZ_OK ↔
        ∃ w, (bz_stream_wrapper.construct lib raw new_in new_out _is_input _level _wf).2
            = Except.ok w ∧
          w.is_input = _is_input ∧ w.ret = BZ_OK ∧ w.stream_end = false) := by
  unfold bz_stream_wrapper.construct
  cases _is_input
  · simp only [Bool.false_eq_true, if_false]
    refine ⟨NativeCall.CompressInit
        { next_in := new_in, avail_in := raw.avail_in, next_out := new_out,
          avail_out := raw.avail_out, bzalloc := NULL, bzfree := NULL, opaq := NULL,
          priv := raw.priv } _level 0 _wf, ?_⟩
    by_cases h : (lib.invoke (NativeCall.CompressInit
        { next_in := new_in, avail_in := raw.avail_in, next_out := new_out,
          avail_out := raw.avail_out, bzalloc := NULL, bzfree := NULL, opaq := NULL,
          priv := raw.priv } _level 0 _wf)).2 = BZ_OK
    · simp [h, NativeCall.entry, bz_stream_wrapper.stream_end, BZ_OK, BZ_STREAM_END]
    · simp [h, NativeCall.entry]
  · simp only [if_true]
    refine ⟨NativeCall.DecompressInit
        { next_in := NULL, avail_in := 0, next_out := new_out,
          avail_out := raw.avail_out, bzalloc := NULL, bzfree := NULL, opaq := NULL,
          priv := raw.priv } 0 0, ?_⟩
    by_cases h : (lib.invoke (NativeCall.DecompressInit
        { next_in := NULL, avail_in := 0, next_out := new_out,
          avail_out := raw.avail_out, bzalloc := NULL, bzfree := NULL, opaq := NULL,
          priv := raw.priv } 0 0)).2 = BZ_OK
    · simp [h, NativeCall.entry, bz_stream_wrapper.stream_end, BZ_OK, BZ_STREAM_END]
    · simp [h, NativeCall.entry]

/-- C10: in decompress mode nothing depends on the compress-only parameters:
two constructions that differ only in level and work factor make the same
native call with the same arguments and end in the same way (the same adapter
state, or the same exception); and two decompress steps from the same state
that differ only in the flush mode, given or omitted, make the same native call
and leave the same object and the same result. -/
theorem decompress_mode_ignores_compress_parameters {σ : Type} (lib : BzLib σ)
    (raw : bz_stream σ) (new_in new_out : Ptr) (level₁ wf₁ level₂ wf₂ : Int)
    (w : bz_stream_wrapper σ) (flags₁ flags₂ : Option Int) :
    bz_stream_wrapper.construct lib raw new_in new_out true level₁ wf₁
        = bz_stream_wrapper.construct lib raw new_in new_out true level₂ wf₂ ∧
    (∃ strm : bz_stream σ,
      (bz_stream_wrapper.construct lib raw new_in new_out true level₁ wf₁).1
        = [(NativeCall.DecompressInit strm 0 0, (lib.invoke (NativeCall.DecompressInit strm 0 0)).2)] ∧
      (bz_stream_wrapper.construct lib raw new_in new_out true level₂ wf₂).1
        = [(NativeCall.DecompressInit strm 0 0, (lib.invoke (NativeCall.DecompressInit strm 0 0)).2)]) ∧
    (w.decompress lib flags₁).obj = (w.decompress lib flags₂).obj ∧
    (w.decompress lib flags₁).calls = (w.decompress lib flags₂).calls ∧
    (w.decompress lib flags₁).result = (w.decompress lib flags₂).result ∧
    (w.decompress lib flags₁).calls = [(NativeCall.Decompress w.strm, decompressStatus lib w)] := by
  refine ⟨rfl, ⟨bz_stream.mk NULL 0 new_out raw.avail_out NULL NULL NULL raw.priv, ?_, ?_⟩,
    rfl, rfl, rfl, ?_⟩
  · simp only [bz_stream_wrapper.construct, if_true]
    split_ifs <;> rfl
  · simp only [bz_stream_wrapper.construct, if_true]
    split_ifs <;> rfl
  · simp only [bz_stream_wrapper.decompress, decompressStatus]
    split_ifs <;> rfl

/-! ## The buffer members -/

/-- C7 (counterexample): the length mutators are not lossless on `long`:
after `set_avail_in(-1)` the accessor `avail_in()` returns `4294967295`, not
`-1`, and after `set_avail_out(4294967296)` the accessor `avail_out()` returns
`0`, not `4294967296`. -/
theorem avail_roundtrip_fails :
    ((scriptedWrapper true BZ_OK []).set_avail_in (-1)).obj.avail_in.result = 4294967295 ∧
    ((scriptedWrapper true BZ_OK []).set_avail_in (-1)).obj.avail_in.result ≠ -1 ∧
    ((scriptedWrapper true BZ_OK []).set_avail_out 4294967296).obj.avail_out.result = 0 ∧
    ((scriptedWrapper true BZ_OK []).set_avail_out 4294967296).obj.avail_out.result
      ≠ 4294967296 := by
  decide

/-- C7 (amended): for every `long` value `n` (indeed every integer),
`set_avail_in(n)` followed by `avail_in()` returns `n mod 2^32`, and
`set_avail_out(n)` followed by `avail_out()` returns `n mod 2^32`; the value
returned is `n` itself exactly when `0 ≤ n < 2^32`. -/
theorem avail_set_then_get {σ : Type} (w : bz_stream_wrapper σ) (n : Int) :
    (w.set_avail_in n).obj.avail_in.result = n % 4294967296 ∧
    (w.set_avail_out n).obj.avail_out.result = n % 4294967296 ∧
    ((w.set_avail_in n).obj.avail_in.result = n ↔ (0 ≤ n ∧ n < 4294967296)) ∧
    ((w.set_avail_out n).obj.avail_out.result = n ↔ (0 ≤ n ∧ n < 4294967296)) := by
  have h : (Int.ofNat (toUInt n)) = n % 4294967296 := by
    unfold toUInt
    exact Int.toNat_of_nonneg (Int.emod_nonneg _ (by norm_num))
  have e1 : (w.set_avail_in n).obj.avail_in.result = n % 4294967296 := h
  have e2 : (w.set_avail_out n).obj.avail_out.result = n % 4294967296 := h
  rw [e1, e2]
  refine ⟨rfl, rfl, ?_, ?_⟩ <;> omega

/-- C8: each of the four mutators changes only its own cursor field (the other
three cursor fields, the allocator hooks, the library-private state, the mode
and the last status are unchanged) and makes no native call; the four accessors
leave the object unchanged and make no native call; and `stream_end()` (as
`done()`) returns the same value before and after any sequence of accessor and
mutator calls. -/
theorem buffer_calls_frame {σ : Type} (w : bz_stream_wrapper σ) (p : Ptr) (n : Int)
    (bs : List BufferCall) :
    ((w.set_next_in p).obj = { w with strm := { w.strm with next_in := p } } ∧
      (w.set_next_in p).obj.strm.avail_in = w.strm.avail_in ∧
      (w.set_next_in p).obj.strm.next_out = w.strm.next_out ∧
      (w.set_next_in p).obj.strm.avail_out = w.strm.avail_out ∧
      (w.set_next_in p).obj.strm.priv = w.strm.priv ∧
      (w.set_next_in p).obj.is_input = w.is_input ∧
      (w.set_next_in p).obj.ret = w.ret ∧ (w.set_next_in p).calls = []) ∧
    ((w.set_avail_in n).obj = { w with strm := { w.strm with avail_in := toUInt n } } ∧
      (w.set_avail_in n).obj.strm.next_in = w.strm.next_in ∧
      (w.set_avail_in n).obj.strm.next_out = w.strm.next_out ∧
      (w.set_avail_in n).obj.strm.avail_out = w.strm.avail_out ∧
      (w.set_avail_in n).obj.strm.priv = w.strm.priv ∧
      (w.set_avail_in n).obj.is_input = w.is_input ∧
      (w.set_avail_in n).obj.ret = w.ret ∧ (w.set_avail_in n).calls = []) ∧
    ((w.set_next_out p).obj = { w with strm := { w.strm with next_out := p } } ∧
      (w.set_next_out p).obj.strm.next_in = w.strm.next_in ∧
      (w.set_next_out p).obj.strm.avail_in = w.strm.avail_in ∧
      (w.set_next_out p).obj.strm.avail_out = w.strm.avail_out ∧
      (w.set_next_out p).obj.strm.priv = w.strm.priv ∧
      (w.set_next_out p).obj.is_input = w.is_input ∧
      (w.set_next_out p).obj.ret = w.ret ∧ (w.set_next_out p).calls = []) ∧
    ((w.set_avail_out n).obj = { w with strm := { w.strm with avail_out := toUInt n } } ∧
      (w.set_avail_out n).obj.strm.next_in = w.strm.next_in ∧
      (w.set_avail_out n).obj.strm.avail_in = w.strm.avail_in ∧
      (w.set_avail_out n).obj.strm.next_out = w.strm.next_out ∧
      (w.set_avail_out n).obj.strm.priv = w.strm.priv ∧
      (w.set_avail_out n).obj.is_input = w.is_input ∧
      (w.set_avail_out n).obj.ret = w.ret ∧ (w.set_avail_out n).calls = []) ∧
    (w.next_in.obj = w ∧ w.avail_in.obj = w ∧ w.next_out.obj = w ∧ w.avail_out.obj = w ∧
      w.next_in.calls = [] ∧ w.avail_in.calls = [] ∧ w.next_out.calls = [] ∧
      w.avail_out.calls = []) ∧
    ((runBuffer bs w).is_input = w.is_input ∧ (runBuffer bs w).ret = w.ret ∧
      (runBuffer bs w).stream_end = w.stream_end ∧ (runBuffer bs w).done = w.done) := by
  refine ⟨⟨rfl, rfl, rfl, rfl, rfl, rfl, rfl, rfl⟩, ⟨rfl, rfl, rfl, rfl, rfl, rfl, rfl, rfl⟩,
    ⟨rfl, rfl, rfl, rfl, rfl, rfl, rfl, rfl⟩, ⟨rfl, rfl, rfl, rfl, rfl, rfl, rfl, rfl⟩,
    ⟨rfl, rfl, rfl, rfl, rfl, rfl, rfl, rfl⟩, ?_⟩
  have key : (runBuffer bs w).is_input = w.is_input ∧ (runBuffer bs w).ret = w.ret := by
    unfold runBuffer
    induction bs generalizing w with
    | nil => exact ⟨rfl, rfl⟩
    | cons b bs ih =>
      rw [List.foldl_cons]
      have hb : (b.exec w).1.is_input = w.is_input ∧ (b.exec w).1.ret = w.ret := by
        cases b <;> exact ⟨rfl, rfl⟩
      exact ⟨(ih _).1.trans hb.1, (ih _).2.trans hb.2⟩
  refine ⟨key.1, key.2, ?_, ?_⟩
  · unfold bz_stream_wrapper.stream_end
    rw [key.2]
  · unfold bz_stream_wrapper.done bz_stream_wrapper.stream_end
    rw [key.2]

/-! ## Sessions -/

/-- The last status of a trace that ends with one more call is the status of
that call. -/
theorem lastStatus_append_singleton {σ : Type} (t : List (Event σ)) (c : NativeCall σ) (r : Int) :
    lastStatus (t ++ [(c, r)]) = some r := by
  simp [lastStatus]

/-- A step makes one native call, of its own kind, stores the status of that
call in `ret` and keeps the mode. -/
theorem step_calls_ret {σ : Type} (lib : BzLib σ) (w : bz_stream_wrapper σ) (flags : Option Int) :
    (∃ c, (w.decompress lib flags).calls = [(c, (w.decompress lib flags).obj.ret)] ∧
      c.entry = Entry.Decompress) ∧
    (∃ c, (w.compress lib flags).calls = [(c, (w.compress lib flags).obj.ret)] ∧
      c.entry = Entry.Compress) ∧
    (w.decompress lib flags).obj.is_input = w.is_input ∧
    (w.compress lib flags).obj.is_input = w.is_input := by
  refine ⟨⟨NativeCall.Decompress w.strm, ?_, rfl⟩, ⟨NativeCall.Compress w.strm (flags.getD BZ_RUN), ?_, rfl⟩, ?_, ?_⟩
  · simp only [bz_stream_wrapper.decompress]
    split_ifs <;> rfl
  · simp only [bz_stream_wrapper.compress]
    split_ifs <;> rfl
  · simp only [bz_stream_wrapper.decompress]
    split_ifs <;> rfl
  · simp only [bz_stream_wrapper.compress]
    split_ifs <;> rfl

/-- A buffer call makes no native call and keeps `ret` and the mode. -/
theorem buffer_exec_frame {σ : Type} (b : BufferCall) (w : bz_stream_wrapper σ) :
    (b.exec w).2 = [] ∧ (b.exec w).1.ret = w.ret ∧ (b.exec w).1.is_input = w.is_input := by
  cases b <;> exact ⟨rfl, rfl, rfl⟩

/-- One call keeps the invariant: `ret` is the status of the last native call
so far. -/
theorem exec_lastStatus {σ : Type} (lib : BzLib σ) (c : Call) (w : bz_stream_wrapper σ)
    (t : List (Event σ)) (h : lastStatus t = some w.ret) :
    lastStatus (t ++ (c.exec lib w).2) = some (c.exec lib w).1.ret := by
  cases c with
  | decompress flags =>
    obtain ⟨c, hc, _⟩ := (step_calls_ret lib w flags).1
    show lastStatus (t ++ (w.decompress lib flags).calls) = _
    rw [hc]
    exact lastStatus_append_singleton t c _
  | compress flags =>
    obtain ⟨c, hc, _⟩ := (step_calls_ret lib w flags).2.1
    show lastStatus (t ++ (w.compress lib flags).calls) = _
    rw [hc]
    exact lastStatus_append_singleton t c _
  | stream_end => simpa [Call.exec] using h
  | done => simpa [Call.exec] using h
  | buffer b =>
    obtain ⟨h1, h2, _⟩ := buffer_exec_frame b w
    show lastStatus (t ++ (b.exec w).2) = some (b.exec w).1.ret
    rw [h1, h2, List.append_nil]
    exact h

/-- A sequence of calls keeps the invariant: `ret` is the status of the last
native call so far. -/
theorem run_lastStatus {σ : Type} (lib : BzLib σ) (cs : List Call) :
    ∀ (w : bz_stream_wrapper σ) (t : List (Event σ)), lastStatus t = some w.ret →
      lastStatus (t ++ (run lib cs w).2) = some (run lib cs w).1.ret := by
  induction cs with
  | nil =>
    intro w t h
    simpa [run] using h
  | cons c cs ih =>
    intro w t h
    have h1 := exec_lastStatus lib c w t h
    have h2 := ih (c.exec lib w).1 (t ++ (c.exec lib w).2) h1
    simpa [run, List.append_assoc] using h2

/-- The constructor makes one native call, to the initializer of the requested
mode; an object it constructs has that mode and the status of that call as
`ret`. -/
theorem construct_shape {σ : Type} (lib : BzLib σ) (raw : bz_stream σ)
    (new_in new_out : Ptr) (_is_input : Bool) (_level _wf : Int) :
    ∃ c r, (bz_stream_wrapper.construct lib raw new_in new_out _is_input _level _wf).1 = [(c, r)] ∧
      c.entry = (if _is_input then Entry.DecompressInit else Entry.CompressInit) ∧
      ∀ w0, (bz_stream_wrapper.construct lib raw new_in new_out _is_input _level _wf).2
          = Except.ok w0 → w0.is_input = _is_input ∧ w0.ret = r := by
  cases _is_input <;> simp only [bz_stream_wrapper.construct] <;> split_ifs <;>
    refine ⟨_, _, rfl, rfl, ?_⟩ <;> intro w0 hw <;> cases hw <;> exact ⟨rfl, rfl⟩

/-- C4: in every state a live adapter can reach (a successful construction
followed by any sequence of compress and decompress steps, thrown exceptions
included, queries and buffer calls), `stream_end()` returns `true` if and only
if the status returned by the most recent native call of the session so far
(the initializer or a step) is `BZ_STREAM_END`, and `done()` returns the same
value as `stream_end()`. -/
theorem stream_end_iff_last_native_status {σ : Type} (lib : BzLib σ) (raw : bz_stream σ)
    (new_in new_out : Ptr) (_is_input : Bool) (_level _wf : Int) (cs : List Call)
    (w : bz_stream_wrapper σ) (t : List (Event σ))
    (h : live lib raw new_in new_out _is_input _level _wf cs = some (w, t)) :
    (w.stream_end = true ↔ lastStatus t = some BZ_STREAM_END) ∧ w.done = w.stream_end := by
  refine ⟨?_, rfl⟩
  obtain ⟨c, r, h1, _, h3⟩ := construct_shape lib raw new_in new_out _is_input _level _wf
  have key : lastStatus t = some w.ret := by
    unfold live at h
    generalize hk : bz_stream_wrapper.construct lib raw new_in new_out _is_input _level _wf = k at h h1 h3
    obtain ⟨t0, res⟩ := k
    cases res with
    | error e => cases h
    | ok w0 =>
      simp only [Option.some.injEq, Prod.mk.injEq] at h
      obtain ⟨hw, ht⟩ := h
      subst hw
      subst ht
      apply run_lastStatus
      simp only at h1
      rw [h1, (h3 w0 rfl).2]
      exact lastStatus_append_singleton [] c r
  rw [key]
  simp [bz_stream_wrapper.stream_end]

/-- C4 (witness): a decompress session over a native library that returns
`BZ_OK` to the initializer, `BZ_OK` to the first step and `BZ_STREAM_END` to
the second. -/
theorem stream_end_iff_last_native_status_witness :
    ∃ w t, live scripted (rawStream [BZ_OK, BZ_OK, BZ_STREAM_END]) 1 2 true 9 30
        [Call.decompress none, Call.buffer (BufferCall.set_avail_in 5), Call.decompress none]
        = some (w, t) ∧
      ((w.stream_end = true ↔ lastStatus t = some BZ_STREAM_END) ∧ w.done = w.stream_end) ∧
      w.stream_end = true :=
  ⟨_, _, rfl, stream_end_iff_last_native_status scripted
    (rawStream [BZ_OK, BZ_OK, BZ_STREAM_END]) 1 2 true 9 30
    [Call.decompress none, Call.buffer (BufferCall.set_avail_in 5), Call.decompress none]
    _ _ rfl, rfl⟩

/-- Counting the calls of an entry point distributes over the concatenation of
traces. -/
theorem countEntry_append {σ : Type} (e : Entry) (t₁ t₂ : List (Event σ)) :
    countEntry e (t₁ ++ t₂) = countEntry e t₁ + countEntry e t₂ := by
  simp [countEntry]

/-- Counting the calls of an entry point in a trace of one call. -/
theorem countEntry_singleton {σ : Type} (e : Entry) (c : NativeCall σ) (r : Int) :
    countEntry e [(c, r)] = if c.entry = e then 1 else 0 := by
  by_cases h : c.entry = e <;> simp [countEntry, h]

/-- A call on a live adapter calls no initializer and no finalizer, and keeps
the mode. -/
theorem exec_no_lifecycle_call {σ : Type} (lib : BzLib σ) (c : Call) (w : bz_stream_wrapper σ)
    (e : Entry) (h1 : e ≠ Entry.Decompress) (h2 : e ≠ Entry.Compress) :
    countEntry e (c.exec lib w).2 = 0 ∧ (c.exec lib w).1.is_input = w.is_input := by
  cases c with
  | decompress flags =>
    obtain ⟨c, hc, he⟩ := (step_calls_ret lib w flags).1
    refine ⟨?_, (step_calls_ret lib w flags).2.2.1⟩
    show countEntry e (w.decompress lib flags).calls = 0
    rw [hc, countEntry_singleton, he, if_neg (Ne.symm h1)]
  | compress flags =>
    obtain ⟨c, hc, he⟩ := (step_calls_ret lib w flags).2.1
    refine ⟨?_, (step_calls_ret lib w flags).2.2.2⟩
    show countEntry e (w.compress lib flags).calls = 0
    rw [hc, countEntry_singleton, he, if_neg (Ne.symm h2)]
  | stream_end => exact ⟨rfl, rfl⟩
  | done => exact ⟨rfl, rfl⟩
  | buffer b =>
    obtain ⟨h3, _, h4⟩ := buffer_exec_frame b w
    refine ⟨?_, h4⟩
    show countEntry e (b.exec w).2 = 0
    rw [h3]
    rfl

/-- A sequence of calls on a live adapter calls no initializer and no
finalizer, and keeps the mode. -/
theorem run_no_lifecycle_call {σ : Type} (lib : BzLib σ) (cs : List Call) (e : Entry)
    (h1 : e ≠ Entry.Decompress) (h2 : e ≠ Entry.Compress) :
    ∀ w : bz_stream_wrapper σ,
      countEntry e (run lib cs w).2 = 0 ∧ (run lib cs w).1.is_input = w.is_input := by
  induction cs with
  | nil =>
    intro w
    exact ⟨rfl, rfl⟩
  | cons c cs ih =>
    intro w
    obtain ⟨a1, a2⟩ := exec_no_lifecycle_call lib c w e h1 h2
    obtain ⟨b1, b2⟩ := ih (c.exec lib w).1
    refine ⟨?_, ?_⟩
    · show countEntry e ((c.exec lib w).2 ++ (run lib cs (c.exec lib w).1).2) = 0
      rw [countEntry_append, a1, b1]
    · show (run lib cs (c.exec lib w).1).1.is_input = w.is_input
      rw [b2, a2]

/-- C6: over the trace of native calls of any session (construction, any
sequence of calls on the adapter, destruction): the trace begins with the
initializer of the requested mode, which is called exactly once, the
initializer of the other mode never; when construction succeeds the trace ends
with the finalizer of the same mode, which is called exactly once, the
finalizer of the other mode never, whatever steps were taken in between; when
construction throws, the initializer call is the whole trace and no finalizer
is called. -/
theorem session_native_lifecycle {σ : Type} (lib : BzLib σ) (raw : bz_stream σ)
    (new_in new_out : Ptr) (_is_input : Bool) (_level _wf : Int) (cs : List Call) :
    countEntry Entry.DecompressInit
        (session lib raw new_in new_out _is_input _level _wf cs)
      = (if _is_input then 1 else 0) ∧
    countEntry Entry.CompressInit
        (session lib raw new_in new_out _is_input _level _wf cs)
      = (if _is_input then 0 else 1) ∧
    ((session lib raw new_in new_out _is_input _level _wf cs).head?.map (fun ev => ev.1.entry)
      = some (if _is_input then Entry.DecompressInit else Entry.CompressInit)) ∧
    countEntry Entry.DecompressEnd
        (session lib raw new_in new_out _is_input _level _wf cs)
      = (if (_is_input &&
            (bz_stream_wrapper.construct lib raw new_in new_out _is_input _level _wf).2.toBool)
          then 1 else 0) ∧
    countEntry Entry.CompressEnd
        (session lib raw new_in new_out _is_input _level _wf cs)
      = (if (!_is_input &&
            (bz_stream_wrapper.construct lib raw new_in new_out _is_input _level _wf).2.toBool)
          then 1 else 0) ∧
    (if (bz_stream_wrapper.construct lib raw new_in new_out _is_input _level _wf).2.toBool then
        (session lib raw new_in new_out _is_input _level _wf cs).getLast?.map
            (fun ev => ev.1.entry)
          = some (if _is_input then Entry.DecompressEnd else Entry.CompressEnd)
      else (session lib raw new_in new_out _is_input _level _wf cs).length = 1) := by
  obtain ⟨c, r, h1, h2, h3⟩ := construct_shape lib raw new_in new_out _is_input _level _wf
  unfold session
  generalize bz_stream_wrapper.construct lib raw new_in new_out _is_input _level _wf = k at h1 h3
  obtain ⟨t0, res⟩ := k
  simp only at h1
  subst h1
  cases res with
  | error e =>
    simp only [Except.toBool, Bool.and_false, Bool.false_eq_true, if_false]
    refine ⟨?_, ?_, ?_, ?_, ?_, rfl⟩
    · rw [countEntry_singleton, h2]
      cases _is_input <;> simp
    · rw [countEntry_singleton, h2]
      cases _is_input <;> simp
    · simp [h2]
    · rw [countEntry_singleton, h2]
      cases _is_input <;> simp
    · rw [countEntry_singleton, h2]
      cases _is_input <;> simp
  | ok w0 =>
    have hm : (run lib cs w0).1.is_input = _is_input := by
      rw [(run_no_lifecycle_call lib cs Entry.DecompressInit (by decide) (by decide) w0).2]
      exact (h3 w0 rfl).1
    have n1 := (run_no_lifecycle_call lib cs Entry.DecompressInit (by decide) (by decide) w0).1
    have n2 := (run_no_lifecycle_call lib cs Entry.CompressInit (by decide) (by decide) w0).1
    have n3 := (run_no_lifecycle_call lib cs Entry.DecompressEnd (by decide) (by decide) w0).1
    have n4 := (run_no_lifecycle_call lib cs Entry.CompressEnd (by decide) (by decide) w0).1
    simp only [Except.toBool, Bool.and_true, if_true]
    refine ⟨?_, ?_, ?_, ?_, ?_, ?_⟩
    · simp only [countEntry_append, n1, bz_stream_wrapper.destroy, hm, countEntry_singleton, h2]
      cases _is_input <;> simp [NativeCall.entry]
    · simp only [countEntry_append, n2, bz_stream_wrapper.destroy, hm, countEntry_singleton, h2]
      cases _is_input <;> simp [NativeCall.entry]
    · simp [h2]
    · simp only [countEntry_append, n3, bz_stream_wrapper.destroy, hm, countEntry_singleton, h2]
      cases _is_input <;> simp [NativeCall.entry]
    · simp only [countEntry_append, n4, bz_stream_wrapper.destroy, hm, countEntry_singleton, h2]
      cases _is_input <;> simp [NativeCall.entry]
    · simp only [bz_stream_wrapper.destroy, hm]
      rw [List.getLast?_concat]
      cases _is_input <;> rfl

/-! ## The error translator -/

/-- The character of a decimal digit is one of `0` to `9`, and gives the digit
back. -/
theorem digitChar_spec (k : Nat) (h : k < 10) :
    48 ≤ (Nat.digitChar k).toNat ∧ (Nat.digitChar k).toNat ≤ 57 ∧
      (Nat.digitChar k).toNat - 48 = k := by
  interval_cases k <;> decide

/-- The value of a numeral with one more digit at its end. -/
theorem decimalValue_concat (l : List Char) (d : Char) :
    decimalValue (l ++ [d]) = 10 * decimalValue l + (d.toNat - 48) := by
  simp [decimalValue, List.foldl_append]

/-- With enough fuel the digit loop of `Nat.repr` puts a non-empty run of
decimal digits, whose value is `n`, before the digits it was given. -/
theorem toDigitsCore_spec : ∀ (fuel n : Nat) (ds : List Char), n < fuel →
    ∃ l, Nat.toDigitsCore 10 fuel n ds = l ++ ds ∧ l ≠ [] ∧
      (∀ c ∈ l, 48 ≤ c.toNat ∧ c.toNat ≤ 57) ∧ decimalValue l = n := by
  intro fuel
  induction fuel with
  | zero =>
    intro n ds h
    omega
  | succ f ih =>
    intro n ds h
    obtain ⟨d1, d2, d3⟩ := digitChar_spec (n % 10) (Nat.mod_lt _ (by norm_num))
    simp only [Nat.toDigitsCore]
    split_ifs with h0
    · refine ⟨[Nat.digitChar (n % 10)], rfl, by simp, ?_, ?_⟩
      · intro c hc
        rw [List.mem_singleton] at hc
        subst hc
        exact ⟨d1, d2⟩
      · have := decimalValue_concat [] (Nat.digitChar (n % 10))
        simp only [List.nil_append] at this
        rw [this, d3]
        simp only [decimalValue, List.foldl_nil]
        omega
    · obtain ⟨l, hl, _, hdig, hval⟩ := ih (n / 10) (Nat.digitChar (n % 10) :: ds) (by omega)
      refine ⟨l ++ [Nat.digitChar (n % 10)], ?_, by simp, ?_, ?_⟩
      · rw [hl]
        simp
      · intro c hc
        rw [List.mem_append, List.mem_singleton] at hc
        rcases hc with hc | hc
        · exact hdig c hc
        · subst hc
          exact ⟨d1, d2⟩
      · rw [decimalValue_concat, hval, d3]
        omega

/-- The decimal numeral of a natural number is a non-empty run of decimal
digits and denotes that number. -/
theorem repr_spec (n : Nat) :
    (Nat.repr n).data ≠ [] ∧ (∀ c ∈ (Nat.repr n).data, 48 ≤ c.toNat ∧ c.toNat ≤ 57) ∧
      decimalValue (Nat.repr n).data = n := by
  obtain ⟨l, hl, hne, hdig, hval⟩ := toDigitsCore_spec (n + 1) n [] (Nat.lt_succ_self n)
  have : (Nat.repr n).data = l := by
    simp only [Nat.repr, Nat.toDigits, List.asString, hl, List.append_nil]
  rw [this]
  exact ⟨hne, hdig, hval⟩

/-- The decimal numeral of an integer is made of digits and the minus sign, and
denotes that integer. -/
theorem toString_int_spec (z : Int) :
    (∀ c ∈ (toString z).data, c = '-' ∨ (48 ≤ c.toNat ∧ c.toNat ≤ 57)) ∧
      intValue (toString z).data = z := by
  cases z with
  | ofNat m =>
    obtain ⟨hne, hdig, hval⟩ := repr_spec m
    have e : (toString (Int.ofNat m)).data = (Nat.repr m).data := rfl
    rw [e]
    refine ⟨fun c hc => Or.inr (hdig c hc), ?_⟩
    cases hl : (Nat.repr m).data with
    | nil => exact absurd hl hne
    | cons c t =>
      have hc : c ≠ '-' := by
        have := (hdig c (by rw [hl]; exact List.mem_cons_self c t)).1
        rintro rfl
        revert this
        decide
      rw [hl] at hval
      simp only [intValue, if_neg hc, hval]
      rfl
  | negSucc m =>
    obtain ⟨_, hdig, hval⟩ := repr_spec (m + 1)
    have e : (toString (Int.negSucc m)).data = '-' :: (Nat.repr (m + 1)).data := rfl
    rw [e]
    refine ⟨?_, ?_⟩
    · intro c hc
      rw [List.mem_cons] at hc
      rcases hc with hc | hc
      · exact Or.inl hc
      · exact Or.inr (hdig c hc)
    · simp only [intValue, if_true, hval]
      rw [Int.negSucc_eq]
      push_cast
      ring

/-- Taking a list while `p` holds goes past a front part on which `p` holds
everywhere. -/
theorem takeWhile_append_all (p : Char → Bool) (l r : List Char)
    (hl : ∀ c ∈ l, p c = true) : (l ++ r).takeWhile p = l ++ r.takeWhile p := by
  induction l with
  | nil => rfl
  | cons a l ih =>
    have ha : p a = true := hl a (List.mem_cons_self a l)
    have ht : ∀ c ∈ l, p c = true := fun c hc => hl c (List.mem_cons_of_mem a hc)
    simp only [List.cons_append, List.takeWhile_cons, ha, if_true, ih ht]

/-- Taking a list while `p` holds stops at the first element on which `p`
fails. -/
theorem takeWhile_append_stop (p : Char → Bool) (l r : List Char) (x : Char)
    (hl : ∀ c ∈ l, p c = true) (hx : p x = false) : (l ++ x :: r).takeWhile p = l := by
  rw [takeWhile_append_all p l (x :: r) hl]
  simp [List.takeWhile_cons, hx]

/-- The message built from a code is a front part without NUL followed by one
character; the code can be read back from the front part whatever follows it,
and for a code that is not documented the front part is the bracketed numeral.
-/
theorem fromCode_spec {σ : Type} (p : bz_stream σ) (ret : Int) :
    ∃ pre : List Char,
      (bzException.fromCode p ret)._msg.data = pre ++ [charOfInt ret] ∧
      (∀ x ∈ pre, x ≠ Char.ofNat 0) ∧ pre ≠ [] ∧
      (∀ tail, codeOfMessage (pre ++ tail) = ret) ∧
      (ret ∉ [BZ_CONFIG_ERROR, BZ_SEQUENCE_ERROR, BZ_PARAM_ERROR, BZ_MEM_ERROR, BZ_DATA_ERROR,
          BZ_DATA_ERROR_MAGIC, BZ_IO_ERROR, BZ_UNEXPECTED_EOF, BZ_OUTBUFF_FULL] →
        pre = ("bzlib: [" ++ toString ret ++ "]: ").data) := by
  simp only [bzException.fromCode]
  split_ifs with h1 h2 h3 h4 h5 h6 h7 h8 h9
  · subst h1
    exact ⟨("bzlib: " ++ "BZ_CONFIG_ERROR: ").data, rfl, by decide, by decide, fun _ => rfl,
      fun h => absurd (by simp) h⟩
  · subst h2
    exact ⟨("bzlib: " ++ "BZ_SEQUENCE_ERROR: ").data, rfl, by decide, by decide, fun _ => rfl,
      fun h => absurd (by simp) h⟩
  · subst h3
    exact ⟨("bzlib: " ++ "BZ_PARAM_ERROR: ").data, rfl, by decide, by decide, fun _ => rfl,
      fun h => absurd (by simp) h⟩
  · subst h4
    exact ⟨("bzlib: " ++ "BZ_MEM_ERROR: ").data, rfl, by decide, by decide, fun _ => rfl,
      fun h => absurd (by simp) h⟩
  · subst h5
    exact ⟨("bzlib: " ++ "BZ_DATA_ERROR: ").data, rfl, by decide, by decide, fun _ => rfl,
      fun h => absurd (by simp) h⟩
  · subst h6
    exact ⟨("bzlib: " ++ "BZ_DATA_ERROR_MAGIC: ").data, rfl, by decide, by decide, fun _ => rfl,
      fun h => absurd (by simp) h⟩
  · subst h7
    exact ⟨("bzlib: " ++ "BZ_IO_ERROR: ").data, rfl, by decide, by decide, fun _ => rfl,
      fun h => absurd (by simp) h⟩
  · subst h8
    exact ⟨("bzlib: " ++ "BZ_UNEXPECTED_EOF: ").data, rfl, by decide, by decide, fun _ => rfl,
      fun h => absurd (by simp) h⟩
  · subst h9
    exact ⟨("bzlib: " ++ "BZ_OUTBUFF_FULL: ").data, rfl, by decide, by decide, fun _ => rfl,
      fun h => absurd (by simp) h⟩
  · obtain ⟨hch, hval⟩ := toString_int_spec ret
    refine ⟨"bzlib: ".data ++ ('[' :: ((toString ret).data ++ "]: ".data)), ?_, ?_, by simp, ?_,
      fun _ => by simp [String.data_append]⟩
    · simp [String.data_push, String.data_append]
    · have hA : ∀ x ∈ "bzlib: ".data, x ≠ Char.ofNat 0 := by decide
      have hB : ∀ x ∈ "]: ".data, x ≠ Char.ofNat 0 := by decide
      intro x hx
      rcases List.mem_append.1 hx with hx | hx
      · exact hA x hx
      · rcases List.mem_cons.1 hx with hx | hx
        · subst hx
          decide
        · rcases List.mem_append.1 hx with hx | hx
          · rcases hch x hx with h | h
            · subst h
              decide
            · rintro rfl
              revert h
              decide
          · exact hB x hx
    · intro tail
      have hstop : ((toString ret).data ++ ']' :: (':' :: ' ' :: tail)).takeWhile
          (fun x => x != ']') = (toString ret).data := by
        apply takeWhile_append_stop
        · intro c hc
          rcases hch c hc with h | h
          · subst h
            decide
          · have : c ≠ ']' := by
              rintro rfl
              revert h
              decide
            simpa using this
        · decide
      have hshape : "bzlib: ".data ++ ('[' :: ((toString ret).data ++ "]: ".data)) ++ tail
          = 'b' :: 'z' :: 'l' :: 'i' :: 'b' :: ':' :: ' ' :: '[' ::
              ((toString ret).data ++ ']' :: (':' :: ' ' :: tail)) := by
        simp
      rw [hshape]
      simp only [codeOfMessage, List.drop_succ_cons, List.drop_zero, if_true, hstop, hval]

/-- The code can be read back from `_msg` and from `what()`, neither of which
is empty; for a code that is not documented `what()` starts with the bracketed
numeral. -/
theorem message_read_back {σ : Type} (p : bz_stream σ) (ret : Int) :
    codeOfMessage (bzException.fromCode p ret)._msg.data = ret ∧
    codeOfMessage (bzException.fromCode p ret).what.data = ret ∧
    (bzException.fromCode p ret)._msg ≠ "" ∧
    (bzException.fromCode p ret).what ≠ "" ∧
    (ret ∉ [BZ_CONFIG_ERROR, BZ_SEQUENCE_ERROR, BZ_PARAM_ERROR, BZ_MEM_ERROR, BZ_DATA_ERROR,
        BZ_DATA_ERROR_MAGIC, BZ_IO_ERROR, BZ_UNEXPECTED_EOF, BZ_OUTBUFF_FULL] →
      StartsWith (bzException.fromCode p ret).what ("bzlib: [" ++ toString ret ++ "]: ")) := by
  obtain ⟨pre, hdata, hnul, hne, hdec, hpre⟩ := fromCode_spec p ret
  have hw : (bzException.fromCode p ret).what.data
      = pre ++ [charOfInt ret].takeWhile (fun c => c != Char.ofNat 0) := by
    simp only [bzException.what, hdata]
    apply takeWhile_append_all
    intro c hc
    simpa using hnul c hc
  refine ⟨?_, ?_, ?_, ?_, ?_⟩
  · rw [hdata]
    exact hdec _
  · rw [hw]
    exact hdec _
  · intro h
    rw [h] at hdata
    exact hne (List.append_eq_nil.1 hdata.symm).1
  · intro h
    rw [h] at hw
    exact hne (List.append_eq_nil.1 hw.symm).1
  · intro h
    refine ⟨String.mk ([charOfInt ret].takeWhile (fun c => c != Char.ofNat 0)), ?_⟩
    apply String.ext
    rw [hw, String.data_append, hpre h]

/-- The member `_msg` starts with the C string `what()` returns. -/
theorem msg_startsWith_what (e : bzException) : StartsWith e._msg e.what := by
  refine ⟨String.mk (e._msg.data.dropWhile (fun c => c != Char.ofNat 0)), ?_⟩
  apply String.ext
  rw [String.data_append]
  exact (List.takeWhile_append_dropWhile _ _).symm

/-- C9: for every integer code the message of the exception built from it (the
member `_msg`, and the C string `what()` returns, with which `_msg` starts) is
not empty; for each of the nine documented codes the message starts with
`bzlib: `, the name of that code and `: `; for every other code `N` it starts
with `bzlib: [`, the decimal numeral of `N` and `]: `; and two different codes
never give the same message. -/
theorem bzException_message {σ : Type} (p : bz_stream σ) :
    (∀ ret : Int, (bzException.fromCode p ret)._msg ≠ "" ∧
      (bzException.fromCode p ret).what ≠ "" ∧
      StartsWith (bzException.fromCode p ret)._msg (bzException.fromCode p ret).what) ∧
    StartsWith (bzException.fromCode p BZ_CONFIG_ERROR).what "bzlib: BZ_CONFIG_ERROR: " ∧
    StartsWith (bzException.fromCode p BZ_SEQUENCE_ERROR).what "bzlib: BZ_SEQUENCE_ERROR: " ∧
    StartsWith (bzException.fromCode p BZ_PARAM_ERROR).what "bzlib: BZ_PARAM_ERROR: " ∧
    StartsWith (bzException.fromCode p BZ_MEM_ERROR).what "bzlib: BZ_MEM_ERROR: " ∧
    StartsWith (bzException.fromCode p BZ_DATA_ERROR).what "bzlib: BZ_DATA_ERROR: " ∧
    StartsWith (bzException.fromCode p BZ_DATA_ERROR_MAGIC).what
      "bzlib: BZ_DATA_ERROR_MAGIC: " ∧
    StartsWith (bzException.fromCode p BZ_IO_ERROR).what "bzlib: BZ_IO_ERROR: " ∧
    StartsWith (bzException.fromCode p BZ_UNEXPECTED_EOF).what "bzlib: BZ_UNEXPECTED_EOF: " ∧
    StartsWith (bzException.fromCode p BZ_OUTBUFF_FULL).what "bzlib: BZ_OUTBUFF_FULL: " ∧
    (∀ N : Int,
      N ∉ [BZ_CONFIG_ERROR, BZ_SEQUENCE_ERROR, BZ_PARAM_ERROR, BZ_MEM_ERROR, BZ_DATA_ERROR,
          BZ_DATA_ERROR_MAGIC, BZ_IO_ERROR, BZ_UNEXPECTED_EOF, BZ_OUTBUFF_FULL] →
        StartsWith (bzException.fromCode p N).what ("bzlib: [" ++ toString N ++ "]: ")) ∧
    Function.Injective (fun ret : Int => (bzException.fromCode p ret)._msg) ∧
    Function.Injective (fun ret : Int => (bzException.fromCode p ret).what) := by
  refine ⟨fun ret => ⟨(message_read_back p ret).2.2.1, (message_read_back p ret).2.2.2.1,
      msg_startsWith_what _⟩,
    ⟨String.singleton (charOfInt BZ_CONFIG_ERROR), rfl⟩,
    ⟨String.singleton (charOfInt BZ_SEQUENCE_ERROR), rfl⟩,
    ⟨String.singleton (charOfInt BZ_PARAM_ERROR), rfl⟩,
    ⟨String.singleton (charOfInt BZ_MEM_ERROR), rfl⟩,
    ⟨String.singleton (charOfInt BZ_DATA_ERROR), rfl⟩,
    ⟨String.singleton (charOfInt BZ_DATA_ERROR_MAGIC), rfl⟩,
    ⟨String.singleton (charOfInt BZ_IO_ERROR), rfl⟩,
    ⟨String.singleton (charOfInt BZ_UNEXPECTED_EOF), rfl⟩,
    ⟨String.singleton (charOfInt BZ_OUTBUFF_FULL), rfl⟩,
    fun N hN => (message_read_back p N).2.2.2.2 hN, ?_, ?_⟩
  · intro a b hab
    have ha := (message_read_back p a).1
    have hb := (message_read_back p b).1
    simp only at hab
    rw [hab] at ha
    exact ha.symm.trans hb
  · intro a b hab
    have ha := (message_read_back p a).2.1
    have hb := (message_read_back p b).2.1
    simp only at hab
    rw [hab] at ha
    exact ha.symm.trans hb

/-- C9 (instance): the code `0` is not a documented failure code; its message
starts with `bzlib: [0]: `. -/
theorem bzException_message_witness :
    (0 : Int) ∉ [BZ_CONFIG_ERROR, BZ_SEQUENCE_ERROR, BZ_PARAM_ERROR, BZ_MEM_ERROR, BZ_DATA_ERROR,
        BZ_DATA_ERROR_MAGIC, BZ_IO_ERROR, BZ_UNEXPECTED_EOF, BZ_OUTBUFF_FULL] ∧
      StartsWith (bzException.fromCode (rawStream []) 0).what ("bzlib: [" ++ toString (0 : Int) ++ "]: ") :=
  ⟨by decide, (bzException_message (rawStream [])).2.2.2.2.2.2.2.2.2.2.1 0 (by decide)⟩

end bxz
